import Mathlib

/-!
Shallow embedding of the TicTacToe server's game engine and statistics
aggregation logic (the code bundled in `src/scripts/test-load.sh`, i.e. the
Express `server.js`: `checkWinner`, `checkForDraw`, the
`POST /api/games/:id/move` handler, and `updatePlayerStats`).

Board cells are JS strings `''`, `'X'`, `'O'`, modelled as `Option Mark`.
The HTTP `position` field is a JS number, modelled as `ℚ` (the handler only
range-checks it, so non-integer values flow into the array lookup, where
`board[pos]` is `undefined`; `List.getElem?` composed with `ratIndex`
reproduces that).  SQLite rows are modelled as finite maps; the
`INSERT OR REPLACE` statements replace the whole row, with unlisted counter
columns reset to their column default `0`, exactly as SQLite does.
-/

inductive Mark where
  | X : Mark
  | O : Mark
deriving DecidableEq, Repr

/-- JS `player === 'X' ? 'O' : 'X'`. -/
def Mark.other : Mark → Mark
  | .X => .O
  | .O => .X

/-- The `player_name` string used as the stats key for a mark. -/
def Mark.key : Mark → String
  | .X => "X"
  | .O => "O"

/-- A board cell: `none` is the empty string `''`, `some m` the mark. -/
abbrev Cell := Option Mark

abbrev Triple := ℕ × ℕ × ℕ

/-- The `winPatterns` array: 3 rows, 3 columns, 2 diagonals, in source order. -/
def winPatterns : List Triple :=
  [(0, 1, 2), (3, 4, 5), (6, 7, 8),
   (0, 3, 6), (1, 4, 7), (2, 5, 8),
   (0, 4, 8), (2, 4, 6)]

/-- One iteration of the `checkWinner` loop body:
`board[a] && board[a] === board[b] && board[a] === board[c]` returns
`board[a]`; out-of-range lookups are JS `undefined`, hence `getElem?`. -/
def tripleWins (board : List Cell) (t : Triple) : Option Mark :=
  match board[t.1]? with
  | some (some m) =>
      if board[t.2.1]? = some (some m) ∧ board[t.2.2]? = some (some m) then
        some m
      else
        none
  | _ => none

/-- JS `checkWinner`: scan `winPatterns` in order, return the first
pattern's mark whose three cells are non-empty and identical, else `null`. -/
def checkWinner (board : List Cell) : Option Mark :=
  winPatterns.findSome? (tripleWins board)

/-- JS `checkForDraw`: `board.every(cell => cell !== '')`. -/
def checkForDraw (board : List Cell) : Bool :=
  board.all fun c => c.isSome

structure Game where
  board : List Cell
  currentPlayer : Mark
  winner : Option Mark
  isDraw : Bool
  moveHistory : List (Mark × ℕ)
  createdAt : ℕ
  updatedAt : ℕ
deriving DecidableEq, Repr

/-- The `POST /api/games` handler's fresh game row: empty 9-cell board,
`currentPlayer = 'X'`, no winner, not a draw, no moves yet. -/
def createGame (now : ℕ) : Game :=
  { board := List.replicate 9 none
    currentPlayer := .X
    winner := none
    isDraw := false
    moveHistory := []
    createdAt := now
    updatedAt := now }

inductive MoveError where
  | InvalidPosition : MoveError
  | GameNotFound : MoveError
  | NotPlayersTurn : MoveError
  | PositionOccupied : MoveError
  | GameAlreadyFinished : MoveError
deriving DecidableEq, Repr

/-- JS array indexing `board[pos]` for a numeric `pos`: defined (at index
`pos`) exactly when `pos` is a non-negative integer; otherwise the lookup
is `undefined`. -/
def ratIndex (pos : ℚ) : Option ℕ :=
  if pos.den = 1 ∧ 0 ≤ pos.num then some pos.num.toNat else none

/-- The per-game part of the `POST /api/games/:id/move` handler, with the
source's checks in source order: range check `position < 0 || position > 8`,
then `player !== currentPlayer`, then `board[position] !== ''` (a lookup
that is JS `undefined` — non-integer or out-of-array index — is `!== ''` and
also hits this branch), then `game.winner || game.is_draw`.  On success the
mark is written, the move appended, winner and draw recomputed on the new
board, the turn flipped unconditionally, and `updated_at` refreshed. -/
def applyMove (g : Game) (pos : ℚ) (pl : Mark) (now : ℕ) :
    Except MoveError Game :=
  if pos < 0 ∨ pos > 8 then .error .InvalidPosition
  else if pl ≠ g.currentPlayer then .error .NotPlayersTurn
  else
    match ratIndex pos with
    | none => .error .PositionOccupied
    | some i =>
      if g.board[i]? ≠ some none then .error .PositionOccupied
      else if g.winner.isSome ∨ g.isDraw then .error .GameAlreadyFinished
      else
        let newBoard := g.board.set i (some pl)
        let newWinner := checkWinner newBoard
        .ok { g with
              board := newBoard
              currentPlayer := pl.other
              winner := newWinner
              isDraw := newWinner.isNone && checkForDraw newBoard
              moveHistory := g.moveHistory ++ [(pl, i)]
              updatedAt := now }

structure PlayerStat where
  wins : ℕ
  losses : ℕ
  draws : ℕ
  totalGames : ℕ
deriving DecidableEq, Repr

/-- The `player_stats` table: a row per `player_name`, or absent. -/
def StatsStore := String → Option PlayerStat

/-- The value the `COALESCE((SELECT ... ), 0)` subqueries see: the stored
row, or all-zero columns when the row is absent. -/
def getStat (st : StatsStore) (k : String) : PlayerStat :=
  (st k).getD { wins := 0, losses := 0, draws := 0, totalGames := 0 }

/-- SQLite `INSERT OR REPLACE`: the whole row for `k` is replaced by the
new one; columns not named in the statement take their defaults. -/
def insertOrReplace (st : StatsStore) (k : String) (row : PlayerStat) :
    StatsStore :=
  fun q => if q = k then some row else st q

/-- JS `updatePlayerStats(winner, isDraw)`.  The draw branch is tested
first.  Each `INSERT OR REPLACE` lists only `player_name`, the one counter
being incremented, and `total_games`, so in the stored row the other two
counters fall back to the column default `0`. -/
def updatePlayerStats (winner : Option Mark) (isDraw : Bool)
    (st : StatsStore) : StatsStore :=
  if isDraw then
    insertOrReplace st "Draw"
      { wins := 0, losses := 0
        draws := (getStat st "Draw").draws + 1
        totalGames := (getStat st "Draw").totalGames + 1 }
  else
    match winner with
    | some w =>
        let st1 := insertOrReplace st w.key
          { wins := (getStat st w.key).wins + 1, losses := 0, draws := 0
            totalGames := (getStat st w.key).totalGames + 1 }
        insertOrReplace st1 w.other.key
          { wins := 0
            losses := (getStat st1 w.other.key).losses + 1
            draws := 0
            totalGames := (getStat st1 w.other.key).totalGames + 1 }
    | none => st

/-- The server's stored state: the `games` table and the `player_stats`
table (the `moves` table rows live in each game's `moveHistory`). -/
structure Sys where
  games : String → Option Game
  stats : StatsStore

/-- The whole `POST /api/games/:id/move` handler: range check before the
`games` lookup, then the per-game checks and update; on success the game
row is rewritten and, when the move ended the game, `updatePlayerStats`
runs.  Every error path leaves the stored state untouched. -/
def moveEndpoint (s : Sys) (gid : String) (pos : ℚ) (pl : Mark) (now : ℕ) :
    Sys × Except MoveError Game :=
  if pos < 0 ∨ pos > 8 then (s, .error .InvalidPosition)
  else
    match s.games gid with
    | none => (s, .error .GameNotFound)
    | some g =>
      match applyMove g pos pl now with
      | .error e => (s, .error e)
      | .ok g2 =>
        ({ games := fun q => if q = gid then some g2 else s.games q
           stats := if g2.winner.isSome || g2.isDraw then
                      updatePlayerStats g2.winner g2.isDraw s.stats
                    else s.stats },
         .ok g2)

/-- Game states reachable through the engine: a fresh game, or an accepted
move applied to a reachable state. -/
inductive Reachable : Game → Prop where
  | create (now : ℕ) : Reachable (createGame now)
  | step (g g2 : Game) (pos : ℚ) (pl : Mark) (now : ℕ) :
      Reachable g → applyMove g pos pl now = .ok g2 → Reachable g2

/-- A triple's three cells are all non-empty and equal to `m` (the spec's
wording of what makes a triple winning). -/
def allM (board : List Cell) (t : Triple) (m : Mark) : Prop :=
  board[t.1]? = some (some m) ∧ board[t.2.1]? = some (some m) ∧
    board[t.2.2]? = some (some m)

instance (board : List Cell) (t : Triple) (m : Mark) :
    Decidable (allM board t m) := by
  unfold allM; infer_instance

deriving instance DecidableEq for Except

/-- On a board, every triple that is fully marked with some mark discovers
the same winner as the full scan (no second mark owns a completed line). -/
def TriUniq (b : List Cell) : Prop :=
  ∀ t ∈ winPatterns, ∀ m, allM b t m → checkWinner b = some m

/-- An empty `player_stats` table. -/
def emptyStats : StatsStore := fun _ => none

/-- Apply one move, keeping the old game when the move is rejected (used
only to build concrete demonstration games). -/
def stepGame (g : Game) (pos : ℚ) (pl : Mark) : Game :=
  (applyMove g pos pl 1).toOption.getD g

/-- Fold a list of moves over a game. -/
def playMoves (g : Game) : List (ℚ × Mark) → Game
  | [] => g
  | (p, pl) :: rest => playMoves (stepGame g p pl) rest

/-- The game after moves X:0, O:3, X:1, O:4 (one X move away from a win). -/
def wg4 : Game :=
  playMoves (createGame 0) [(0, .X), (3, .O), (1, .X), (4, .O)]

/-- The finished game after X completes the top row: X:0, O:3, X:1, O:4,
X:2.  Its winner is X and its current player has been flipped to O. -/
def wg5 : Game := stepGame wg4 2 .X

/-- A stored state holding the finished game `wg5` under id `g1`. -/
def winSys : Sys :=
  { games := fun q => if q = "g1" then some wg5 else none
    stats := emptyStats }

/-- The game after the first 8 moves of a drawn game:
X:0, O:2, X:1, O:3, X:5, O:4, X:6, O:7. -/
def dg8 : Game :=
  playMoves (createGame 0)
    [(0, .X), (2, .O), (1, .X), (3, .O), (5, .X), (4, .O), (6, .X), (7, .O)]

/-- The drawn game after the filling ninth move X:8. -/
def dg9 : Game := stepGame dg8 8 .X

/-- A board with two completed lines of different marks (not reachable by
valid play): X owns the top row, O owns the middle row. -/
def twoLineBoard : List Cell :=
  [some .X, some .X, some .X, some .O, some .O, some .O, none, none, none]

theorem tripleWins_eq_some_iff (b : List Cell) (t : Triple) (m : Mark) :
    tripleWins b t = some m ↔ allM b t m := by
  rcases h1 : b[t.1]? with _ | (_ | m2) <;>
    simp only [tripleWins, allM, h1] <;> try simp
  constructor
  · rintro ⟨⟨hb, hc⟩, rfl⟩
    exact ⟨rfl, hb, hc⟩
  · rintro ⟨rfl, hb, hc⟩
    exact ⟨⟨hb, hc⟩, rfl⟩

theorem checkWinner_eq_none_iff (b : List Cell) :
    checkWinner b = none ↔ ∀ t ∈ winPatterns, ∀ m, ¬ allM b t m := by
  unfold checkWinner
  rw [List.findSome?_eq_none_iff]
  constructor
  · intro h t ht m hm
    have h2 := h t ht
    rw [(tripleWins_eq_some_iff b t m).2 hm] at h2
    cases h2
  · intro h t ht
    cases h3 : tripleWins b t with
    | none => rfl
    | some m => exact absurd ((tripleWins_eq_some_iff b t m).1 h3) (h t ht m)

theorem checkWinner_some (b : List Cell) (m : Mark)
    (h : checkWinner b = some m) : ∃ t ∈ winPatterns, allM b t m := by
  unfold checkWinner at h
  rw [List.findSome?_eq_some_iff] at h
  obtain ⟨l1, t, l2, hl, ht, -⟩ := h
  refine ⟨t, ?_, (tripleWins_eq_some_iff b t m).1 ht⟩
  rw [hl]
  exact List.mem_append_right _ (List.mem_cons_self t l2)

theorem checkWinner_first_match (b : List Cell) (l1 : List Triple)
    (t : Triple) (l2 : List Triple) (m : Mark)
    (hl : winPatterns = l1 ++ t :: l2)
    (h1 : ∀ t2 ∈ l1, ∀ m2, ¬ allM b t2 m2)
    (h2 : allM b t m) :
    checkWinner b = some m := by
  unfold checkWinner
  rw [hl, List.findSome?_eq_some_iff]
  refine ⟨l1, t, l2, rfl, (tripleWins_eq_some_iff b t m).2 h2, ?_⟩
  intro t2 ht2
  cases h3 : tripleWins b t2 with
  | none => rfl
  | some m2 => exact absurd ((tripleWins_eq_some_iff b t2 m2).1 h3) (h1 t2 ht2 m2)

theorem checkWinner_of_allM_unique (b : List Cell) (m : Mark)
    (hex : ∃ t ∈ winPatterns, allM b t m)
    (huniq : ∀ t ∈ winPatterns, ∀ m2, allM b t m2 → m2 = m) :
    checkWinner b = some m := by
  cases hw : checkWinner b with
  | none =>
    rw [checkWinner_eq_none_iff] at hw
    obtain ⟨t, ht, hm⟩ := hex
    exact absurd hm (hw t ht m)
  | some m2 =>
    obtain ⟨t, ht, hm⟩ := checkWinner_some b m2 hw
    rw [huniq t ht m2 hm]

theorem findSome?_perm_of_triUniq (b : List Cell) (l : List Triple)
    (hperm : l.Perm winPatterns) (huniq : TriUniq b) :
    l.findSome? (tripleWins b) = checkWinner b := by
  cases h : checkWinner b with
  | none =>
    rw [checkWinner_eq_none_iff] at h
    rw [List.findSome?_eq_none_iff]
    intro t ht
    cases h3 : tripleWins b t with
    | none => rfl
    | some m =>
      exact absurd ((tripleWins_eq_some_iff b t m).1 h3)
        (h t (hperm.mem_iff.1 ht) m)
  | some m =>
    obtain ⟨t, ht, hm⟩ := checkWinner_some b m h
    have hsome : (l.findSome? (tripleWins b)).isSome := by
      rw [List.findSome?_isSome_iff]
      refine ⟨t, hperm.mem_iff.2 ht, ?_⟩
      rw [(tripleWins_eq_some_iff b t m).2 hm]
      rfl
    obtain ⟨m3, hm3⟩ := Option.isSome_iff_exists.1 hsome
    obtain ⟨l1, t3, l2, heq, ht3, -⟩ := List.findSome?_eq_some_iff.1 hm3
    have ht3w : t3 ∈ winPatterns := by
      refine hperm.mem_iff.1 ?_
      rw [heq]
      exact List.mem_append_right _ (List.mem_cons_self t3 l2)
    have h4 := huniq t3 ht3w m3 ((tripleWins_eq_some_iff b t3 m3).1 ht3)
    rw [h] at h4
    injection h4 with h5
    subst h5
    exact hm3

theorem getElem?_set_keeps (b : List Cell) (i j : ℕ) (p m : Mark)
    (hmp : m ≠ p) (h : (b.set i (some p))[j]? = some (some m)) :
    b[j]? = some (some m) := by
  rw [List.getElem?_set] at h
  split at h
  · split at h
    · simp only [Option.some.injEq] at h
      exact absurd h.symm hmp
    · cases h
  · exact h

theorem tripleWins_set (b : List Cell) (i : ℕ) (p : Mark) (t : Triple)
    (m : Mark) (h : tripleWins (b.set i (some p)) t = some m) :
    tripleWins b t = some m ∨ m = p := by
  by_cases hmp : m = p
  · exact Or.inr hmp
  · left
    rw [tripleWins_eq_some_iff] at h ⊢
    obtain ⟨h1, h2, h3⟩ := h
    exact ⟨getElem?_set_keeps b i t.1 p m hmp h1,
      getElem?_set_keeps b i t.2.1 p m hmp h2,
      getElem?_set_keeps b i t.2.2 p m hmp h3⟩

theorem checkWinner_set_of_none (b : List Cell) (i : ℕ) (p m : Mark)
    (hb : checkWinner b = none)
    (h : checkWinner (b.set i (some p)) = some m) : m = p := by
  obtain ⟨t, ht, hm⟩ := checkWinner_some _ _ h
  by_cases hmp : m = p
  · exact hmp
  · exfalso
    rcases tripleWins_set b i p t m ((tripleWins_eq_some_iff _ t m).2 hm) with
      h2 | h2
    · rw [checkWinner_eq_none_iff] at hb
      exact hb t ht m ((tripleWins_eq_some_iff b t m).1 h2)
    · exact hmp h2

theorem applyMove_ok_iff (g : Game) (pos : ℚ) (pl : Mark) (now : ℕ)
    (g2 : Game) :
    applyMove g pos pl now = .ok g2 ↔
      ∃ i, ratIndex pos = some i ∧ ¬(pos < 0 ∨ pos > 8) ∧
        pl = g.currentPlayer ∧ g.board[i]? = some none ∧
        g.winner = none ∧ g.isDraw = false ∧
        g2 = { g with
               board := g.board.set i (some pl)
               currentPlayer := pl.other
               winner := checkWinner (g.board.set i (some pl))
               isDraw := (checkWinner (g.board.set i (some pl))).isNone &&
                 checkForDraw (g.board.set i (some pl))
               moveHistory := g.moveHistory ++ [(pl, i)]
               updatedAt := now } := by
  unfold applyMove
  split
  next h1 =>
    simp [h1]
  next h1 =>
    split
    next h2 =>
      simp only [ne_eq] at h2
      constructor
      · intro h
        cases h
      · rintro ⟨i, -, -, hpl, -⟩
        exact absurd hpl h2
    next h2 =>
      simp only [ne_eq, not_not] at h2
      split
      next hi =>
        constructor
        · intro h
          cases h
        · rintro ⟨i, hi2, -⟩
          rw [hi] at hi2
          cases hi2
      next i hi =>
        split
        next h3 =>
          constructor
          · intro h
            cases h
          · rintro ⟨i2, hi2, -, -, hcell, -⟩
            rw [hi] at hi2
            cases hi2
            exact absurd hcell h3
        next h3 =>
          simp only [ne_eq, not_not] at h3
          split
          next h4 =>
            constructor
            · intro h
              cases h
            · rintro ⟨i2, hi2, -, -, -, hwin, hdraw, -⟩
              rw [hi] at hi2
              cases hi2
              rcases h4 with h4 | h4
              · rw [hwin] at h4
                cases h4
              · rw [hdraw] at h4
                cases h4
          next h4 =>
            push_neg at h4
            obtain ⟨h4a, h4b⟩ := h4
            rw [Except.ok.injEq]
            constructor
            · intro h
              refine ⟨i, hi, h1, h2, h3,
                Option.not_isSome_iff_eq_none.1 (by simp [h4a]), by
                  simpa using h4b, ?_⟩
              rw [← h]
            · rintro ⟨i2, hi2, -, -, -, -, -, hg2⟩
              rw [hi] at hi2
              cases hi2
              rw [hg2]

theorem reachable_inv (g : Game) (h : Reachable g) :
    g.winner = checkWinner g.board ∧ TriUniq g.board := by
  induction h with
  | create now =>
    refine ⟨rfl, ?_⟩
    intro t ht m hm
    exfalso
    obtain ⟨h1, -, -⟩ := hm
    simp only [createGame, List.getElem?_replicate] at h1
    split at h1
    · cases h1
    · cases h1
  | step g g2 pos pl now hr hok ih =>
    obtain ⟨i, hi, hrange, hpl, hcell, hwin, hdraw, hg2⟩ :=
      (applyMove_ok_iff g pos pl now g2).1 hok
    have hcw : checkWinner g.board = none := by
      rw [← ih.1]
      exact hwin
    have huniq2 : ∀ t ∈ winPatterns, ∀ m,
        allM (g.board.set i (some pl)) t m → m = pl := by
      intro t ht m hm
      rcases tripleWins_set g.board i pl t m
          ((tripleWins_eq_some_iff _ t m).2 hm) with h2 | h2
      · exfalso
        rw [checkWinner_eq_none_iff] at hcw
        exact hcw t ht m ((tripleWins_eq_some_iff g.board t m).1 h2)
      · exact h2
    subst hg2
    refine ⟨rfl, ?_⟩
    intro t ht m hm
    have hmpl : m = pl := huniq2 t ht m hm
    subst hmpl
    exact checkWinner_of_allM_unique _ m ⟨t, ht, hm⟩ huniq2

theorem wg4_reachable : Reachable wg4 :=
  Reachable.step (playMoves (createGame 0) [(0, .X), (3, .O), (1, .X)]) wg4
    4 .O 1
    (Reachable.step (playMoves (createGame 0) [(0, .X), (3, .O)]) _ 1 .X 1
      (Reachable.step (playMoves (createGame 0) [(0, .X)]) _ 3 .O 1
        (Reachable.step (createGame 0) _ 0 .X 1 (Reachable.create 0)
          (by decide))
        (by decide))
      (by decide))
    (by decide)

theorem wg5_reachable : Reachable wg5 :=
  Reachable.step wg4 wg5 2 .X 1 wg4_reachable (by decide)

/-- C3 counterexample: the claim's biconditional fails on a board holding
two completed lines of different marks.  On `twoLineBoard` the triple
`(3,4,5)` (one of the 8 listed patterns) is all `O`, yet `checkWinner`
does not return `O` — it returns `X`, the mark of the earlier pattern. -/
theorem C3_counterexample :
    (3, 4, 5) ∈ winPatterns ∧ allM twoLineBoard (3, 4, 5) Mark.O ∧
      checkWinner twoLineBoard = some Mark.X ∧
      checkWinner twoLineBoard ≠ some Mark.O := by decide

/-- C3 (amended): `checkWinner` returns `m` only if one of the 8 listed
triples is all `m`; it returns the first matching triple's mark in listed
order; and on every board reachable by valid play the converse holds as
well (any all-`m` listed triple forces result `m`) and the result does not
depend on the evaluation order of the patterns. -/
theorem C3_winner_scan (b : List Cell) (m : Mark) (l1 l2 : List Triple)
    (t : Triple) (g : Game) (t2 : Triple) (m2 : Mark) (l : List Triple)
    (hg : Reachable g) (hperm : l.Perm winPatterns) :
    (checkWinner b = some m → ∃ t3 ∈ winPatterns, allM b t3 m) ∧
    (winPatterns = l1 ++ t :: l2 → (∀ t3 ∈ l1, ∀ m3, ¬ allM b t3 m3) →
      allM b t m → checkWinner b = some m) ∧
    (t2 ∈ winPatterns → allM g.board t2 m2 →
      checkWinner g.board = some m2) ∧
    l.findSome? (tripleWins g.board) = checkWinner g.board := by
  refine ⟨checkWinner_some b m, checkWinner_first_match b l1 t l2 m, ?_, ?_⟩
  · intro ht2 hm2
    exact (reachable_inv g hg).2 t2 ht2 m2 hm2
  · exact findSome?_perm_of_triUniq g.board l hperm (reachable_inv g hg).2

/-- C3 witness: on the reachable won game `wg5`, the top row is all X, the
scan finds X, and scanning the patterns in reversed order agrees. -/
theorem C3_witness :
    ((0, 1, 2) ∈ winPatterns → allM wg5.board (0, 1, 2) Mark.X →
      checkWinner wg5.board = some Mark.X) ∧
    winPatterns.reverse.findSome? (tripleWins wg5.board) =
      checkWinner wg5.board ∧
    allM wg5.board (0, 1, 2) Mark.X := by
  have h := C3_winner_scan wg5.board Mark.X [] [] (0, 1, 2) wg5 (0, 1, 2)
    Mark.X winPatterns.reverse wg5_reachable (List.reverse_perm winPatterns)
  exact ⟨h.2.2.1, h.2.2.2, by decide⟩

/-- C4: after every accepted move, `isDraw` holds iff the post-move board
has no winner and is full; a set winner forces `isDraw = false`, so the
two terminal flags are mutually exclusive in the resulting state. -/
theorem C4_draw_flag (g : Game) (pos : ℚ) (pl : Mark) (now : ℕ) (g2 : Game)
    (h : applyMove g pos pl now = .ok g2) :
    g2.winner = checkWinner g2.board ∧
    (g2.isDraw = true ↔
      (checkWinner g2.board = none ∧ checkForDraw g2.board = true)) ∧
    (∀ m, g2.winner = some m → g2.isDraw = false) ∧
    ¬(g2.winner.isSome = true ∧ g2.isDraw = true) := by
  obtain ⟨i, -, -, -, -, -, -, hg2⟩ := (applyMove_ok_iff g pos pl now g2).1 h
  subst hg2
  refine ⟨rfl, ?_, ?_, ?_⟩
  · simp [Bool.and_eq_true, Option.isNone_iff_eq_none]
  · intro m hm
    simp only at hm
    simp [Bool.and_eq_true, hm]
  · rintro ⟨hw, hd⟩
    simp only [Bool.and_eq_true, Option.isNone_iff_eq_none] at hd hw
    rw [hd.1] at hw
    cases hw

/-- C4 witness: the ninth move of the demonstration game fills the board
with no line, and the resulting state is a draw with no winner. -/
theorem C4_witness :
    dg9.isDraw = true ∧ dg9.winner = none ∧ checkForDraw dg9.board = true :=
  ⟨(C4_draw_flag dg8 8 Mark.X 1 dg9 (by decide)).2.1.2
      ⟨by decide, by decide⟩,
   by decide, by decide⟩

/-- C5: an accepted move by `pl` at (integer) position `i` writes `pl`'s
mark at `i`, appends `(pl, i)` to the move history, recomputes winner and
draw from the post-move board, refreshes `updatedAt`, and flips
`currentPlayer` to the opposite mark unconditionally. -/
theorem C5_success_update (g : Game) (pos : ℚ) (pl : Mark) (now : ℕ)
    (g2 : Game) (h : applyMove g pos pl now = .ok g2) :
    ∃ i, ratIndex pos = some i ∧ pl = g.currentPlayer ∧
      g2.board = g.board.set i (some pl) ∧
      g2.moveHistory = g.moveHistory ++ [(pl, i)] ∧
      g2.winner = checkWinner g2.board ∧
      g2.isDraw = ((checkWinner g2.board).isNone && checkForDraw g2.board) ∧
      g2.updatedAt = now ∧
      g2.currentPlayer = pl.other := by
  obtain ⟨i, hi, -, hpl, -, -, -, hg2⟩ := (applyMove_ok_iff g pos pl now g2).1 h
  subst hg2
  exact ⟨i, hi, hpl, rfl, rfl, rfl, rfl, rfl, rfl⟩

/-- C5 witness: X's winning fifth move of the demonstration game updates
every field of the game record consistently. -/
theorem C5_witness :
    ∃ i, ratIndex 2 = some i ∧ Mark.X = wg4.currentPlayer ∧
      wg5.board = wg4.board.set i (some Mark.X) ∧
      wg5.moveHistory = wg4.moveHistory ++ [(Mark.X, i)] ∧
      wg5.winner = checkWinner wg5.board ∧
      wg5.isDraw = ((checkWinner wg5.board).isNone && checkForDraw wg5.board) ∧
      wg5.updatedAt = 1 ∧
      wg5.currentPlayer = Mark.X.other :=
  C5_success_update wg4 2 Mark.X 1 wg5 (by decide)

/-- C10: in every reachable game, an accepted move that produces a winner
produces the mover's own mark — never the opponent's. -/
theorem C10_winner_is_mover (g : Game) (pos : ℚ) (pl : Mark) (now : ℕ)
    (g2 : Game) (m : Mark) (hr : Reachable g)
    (h : applyMove g pos pl now = .ok g2) (hw : g2.winner = some m) :
    m = pl := by
  obtain ⟨i, -, -, -, -, hwin, -, hg2⟩ := (applyMove_ok_iff g pos pl now g2).1 h
  have hcw : checkWinner g.board = none := by
    rw [← (reachable_inv g hr).1]
    exact hwin
  subst hg2
  exact checkWinner_set_of_none g.board i pl m hcw hw

/-- C10 witness: the winning move X:2 on the reachable game `wg4` yields
winner X, the mover's mark. -/
theorem C10_witness :
    wg5.winner = some Mark.X ∧ Mark.X = Mark.X :=
  ⟨by decide,
   C10_winner_is_mover wg4 2 Mark.X 1 wg5 Mark.X wg4_reachable (by decide)
     (by decide)⟩

/-- C1 counterexample: the handler checks the turn before the terminal
flag, so a move against the finished game `wg5` (winner X) by the
wrong-turn player X is rejected as `NotPlayersTurn`, not
`GameAlreadyFinished`. -/
theorem C1_counterexample :
    wg5.winner = some Mark.X ∧
    (moveEndpoint winSys "g1" 5 Mark.X 2).2 = .error .NotPlayersTurn ∧
    (moveEndpoint winSys "g1" 5 Mark.X 2).2 ≠
      .error .GameAlreadyFinished := by decide

/-- C1 (amended): the terminal check runs after the position, turn and
occupancy checks, so a move against a terminal game returns
`GameAlreadyFinished` (with the stored state unchanged) when it also has
an in-range integer position at an empty cell and matches the current
player; moves failing an earlier check get that earlier error instead. -/
theorem C1_terminal_rejected (s : Sys) (gid : String) (g : Game)
    (pos : ℚ) (pl : Mark) (now : ℕ) (i : ℕ)
    (hg : s.games gid = some g)
    (hterm : g.winner.isSome = true ∨ g.isDraw = true)
    (hrange : ¬(pos < 0 ∨ pos > 8))
    (hpl : pl = g.currentPlayer)
    (hi : ratIndex pos = some i)
    (hcell : g.board[i]? = some none) :
    moveEndpoint s gid pos pl now = (s, .error .GameAlreadyFinished) := by
  have happ : applyMove g pos pl now = .error .GameAlreadyFinished := by
    unfold applyMove
    rw [if_neg hrange, if_neg (show ¬(pl ≠ g.currentPlayer) by simp [hpl])]
    simp only [hi]
    rw [if_neg (by simp [hcell]), if_pos hterm]
  unfold moveEndpoint
  rw [if_neg hrange]
  simp only [hg, happ]

/-- C1 witness: on the won game `wg5` (current player O, cell 5 empty),
the move O:5 is rejected as `GameAlreadyFinished` and the stored state is
returned unchanged. -/
theorem C1_witness :
    moveEndpoint winSys "g1" 5 Mark.O 2 =
      (winSys, .error .GameAlreadyFinished) :=
  C1_terminal_rejected winSys "g1" wg5 5 Mark.O 2 5 (by decide) (by decide)
    (by decide) (by decide) (by decide) (by decide)

/-- C8 counterexample: on a fresh game (non-terminal, X to move), the
non-integer position 9/2 passes the range check `pos < 0 || pos > 8`, the
board lookup is then JS `undefined`, and the move is rejected as
`PositionOccupied` — not `InvalidPosition` as the claim states. -/
theorem C8_counterexample :
    (createGame 0).winner = none ∧ (createGame 0).isDraw = false ∧
    Mark.X = (createGame 0).currentPlayer ∧ (mkRat 9 2).den ≠ 1 ∧
    applyMove (createGame 0) (mkRat 9 2) Mark.X 1 =
      .error .PositionOccupied ∧
    applyMove (createGame 0) (mkRat 9 2) Mark.X 1 ≠
      .error .InvalidPosition := by decide

/-- C8 (amended): a position outside [0,8] is rejected as
`InvalidPosition` with the stored state unchanged; a non-integer position
inside [0,8], submitted by the player whose turn it is, instead slips past
the range check and is rejected as `PositionOccupied` because the board
lookup at a non-integer index is undefined. -/
theorem C8_position_validation (g : Game) (s : Sys) (gid : String)
    (pos : ℚ) (pl : Mark) (now : ℕ) :
    ((pos < 0 ∨ pos > 8) →
      applyMove g pos pl now = .error .InvalidPosition ∧
      moveEndpoint s gid pos pl now = (s, .error .InvalidPosition)) ∧
    (¬(pos < 0 ∨ pos > 8) → pos.den ≠ 1 → pl = g.currentPlayer →
      applyMove g pos pl now = .error .PositionOccupied) := by
  constructor
  · intro h
    constructor
    · unfold applyMove
      rw [if_pos h]
    · unfold moveEndpoint
      rw [if_pos h]
  · intro h1 h2 h3
    have hri : ratIndex pos = none := by
      unfold ratIndex
      rw [if_neg (fun hc => h2 hc.1)]
    unfold applyMove
    rw [if_neg h1, if_neg (by simp [h3]), hri]

/-- C8 witness: position 9 is rejected as `InvalidPosition`; the in-range
non-integer 9/2 is rejected as `PositionOccupied`. -/
theorem C8_witness :
    (applyMove (createGame 0) 9 Mark.X 1 = .error .InvalidPosition ∧
      moveEndpoint winSys "none" 9 Mark.X 1 =
        (winSys, .error .InvalidPosition)) ∧
    applyMove (createGame 0) (mkRat 9 2) Mark.X 1 =
      .error .PositionOccupied :=
  ⟨(C8_position_validation (createGame 0) winSys "none" 9 Mark.X 1).1
      (by decide),
   (C8_position_validation (createGame 0) winSys "none" (mkRat 9 2) Mark.X
      1).2 (by decide) (by decide) (by decide)⟩

/-- C9: the move handler is atomic — it either fails some validation and
returns the stored state unchanged with an error, or passes them all and
rewrites the one game row with every field updated consistently (running
the stats update exactly when the move ended the game). -/
theorem C9_atomic (s : Sys) (gid : String) (pos : ℚ) (pl : Mark) (now : ℕ) :
    (∃ e, moveEndpoint s gid pos pl now = (s, .error e)) ∨
    (∃ g g2, s.games gid = some g ∧
      moveEndpoint s gid pos pl now =
        ({ games := fun q => if q = gid then some g2 else s.games q
           stats := if g2.winner.isSome || g2.isDraw then
                      updatePlayerStats g2.winner g2.isDraw s.stats
                    else s.stats },
         .ok g2) ∧
      (∃ i, ratIndex pos = some i ∧ pl = g.currentPlayer ∧
        g.board[i]? = some none ∧ g.winner = none ∧ g.isDraw = false ∧
        g2.board = g.board.set i (some pl) ∧
        g2.moveHistory = g.moveHistory ++ [(pl, i)] ∧
        g2.winner = checkWinner g2.board ∧
        g2.isDraw = ((checkWinner g2.board).isNone &&
          checkForDraw g2.board) ∧
        g2.currentPlayer = pl.other ∧ g2.updatedAt = now ∧
        g2.createdAt = g.createdAt)) := by
  by_cases hrange : pos < 0 ∨ pos > 8
  · left
    refine ⟨.InvalidPosition, ?_⟩
    unfold moveEndpoint
    rw [if_pos hrange]
  · cases hg : s.games gid with
    | none =>
      left
      refine ⟨.GameNotFound, ?_⟩
      unfold moveEndpoint
      rw [if_neg hrange, hg]
    | some g =>
      cases happ : applyMove g pos pl now with
      | error e =>
        left
        refine ⟨e, ?_⟩
        unfold moveEndpoint
        rw [if_neg hrange]
        simp only [hg, happ]
      | ok g2 =>
        right
        obtain ⟨i, hi, -, hpl, hcell, hwin, hdraw, hg2⟩ :=
          (applyMove_ok_iff g pos pl now g2).1 happ
        refine ⟨g, g2, rfl, ?_, i, hi, hpl, hcell, hwin, hdraw, ?_⟩
        · unfold moveEndpoint
          rw [if_neg hrange]
          simp only [hg, happ]
        · subst hg2
          exact ⟨rfl, rfl, rfl, rfl, rfl, rfl, rfl⟩

/-- C2: the `INSERT OR REPLACE` statements list only one counter column
plus `total_games`, so the replaced row resets the other counters to the
column default 0.  Starting from an empty table, X beats O (O's row then
has `losses = 1`), and when O later wins a game, O's row is replaced with
`losses = 0`: a counter decreased across an invocation of the update. -/
theorem C2_losses_reset :
    (getStat (updatePlayerStats (some Mark.X) false emptyStats) "O").losses
      = 1 ∧
    (getStat (updatePlayerStats (some Mark.O) false
      (updatePlayerStats (some Mark.X) false emptyStats)) "O").losses
      = 0 := by decide

/-- C6: one winner-X invocation of the stats update increments X's wins by
exactly 1, O's losses by exactly 1, and both players' total games by
exactly 1 (stated for either winning mark `w`); one draw invocation
increments the Draw bookkeeping key's draws and total games by exactly 1. -/
theorem C6_outcome_increments (st : StatsStore) (w : Mark) :
    (getStat (updatePlayerStats (some w) false st) w.key).wins =
      (getStat st w.key).wins + 1 ∧
    (getStat (updatePlayerStats (some w) false st) w.other.key).losses =
      (getStat st w.other.key).losses + 1 ∧
    (getStat (updatePlayerStats (some w) false st) w.key).totalGames =
      (getStat st w.key).totalGames + 1 ∧
    (getStat (updatePlayerStats (some w) false st) w.other.key).totalGames =
      (getStat st w.other.key).totalGames + 1 ∧
    (getStat (updatePlayerStats none true st) "Draw").draws =
      (getStat st "Draw").draws + 1 ∧
    (getStat (updatePlayerStats none true st) "Draw").totalGames =
      (getStat st "Draw").totalGames + 1 := by
  cases w <;>
    simp [updatePlayerStats, insertOrReplace, getStat, Mark.key, Mark.other]

/-- C7 counterexample: invoked with both a winner mark and `isDraw = true`,
the update is not rejected — it updates the Draw row's counters. -/
theorem C7_counterexample :
    (getStat (updatePlayerStats (some Mark.X) true emptyStats) "Draw").draws
      = 1 ∧
    updatePlayerStats (some Mark.X) true emptyStats "Draw" ≠
      emptyStats "Draw" := by decide

/-- C7 (amended): when both a winner mark and `isDraw = true` are
supplied, the draw branch (tested first) silently takes precedence: the
result is exactly the draw update — the Draw key's draws and total games
are incremented and the winner argument is ignored; there is no defensive
rejection. -/
theorem C7_draw_precedence (st : StatsStore) (w : Mark) :
    updatePlayerStats (some w) true st = updatePlayerStats none true st ∧
    (getStat (updatePlayerStats (some w) true st) "Draw").draws =
      (getStat st "Draw").draws + 1 ∧
    (getStat (updatePlayerStats (some w) true st) "Draw").totalGames =
      (getStat st "Draw").totalGames + 1 := by
  refine ⟨rfl, ?_, ?_⟩ <;>
    simp [updatePlayerStats, insertOrReplace, getStat]

/-- Sanity facts about the demonstration games: `wg5` is won by X with the
turn flipped to O, and `dg9` is a draw. -/
theorem demo_games_sanity :
    wg5.winner = some Mark.X ∧ wg5.isDraw = false ∧
    wg5.currentPlayer = Mark.O ∧ dg9.winner = none ∧ dg9.isDraw = true ∧
    checkWinner (createGame 0).board = none := by decide
